import Mathlib

/-!
Shallow embedding of the Sui transaction analyzer (`sui.complete.py`).

The classifier `parse_transaction`, its helpers (`format_amount`,
`parse_token_name`), and the batch orchestration loop are translated into
Lean.  Python floats are modelled as rationals; dynamically typed numeric
JSON fields are modelled by `PyNum` (an integer or a raw string), and the
exceptions that `int()` / `float()` raise on unparsable strings are
modelled by `Except Unit`.  Validator directories are modelled as
functions `String → Option String`.
-/

namespace Sui

/-- A dynamically typed numeric JSON field: either an integer or a raw
string (which Python's `int()` / `float()` may or may not parse). -/
inductive PyNum where
  | int (n : ℤ)
  | str (s : String)
deriving DecidableEq, Repr

/-- A value in the result dictionary: a string or a float (as ℚ). -/
inductive PyVal where
  | s (v : String)
  | q (v : ℚ)
deriving DecidableEq, Repr

/-- The result dictionary returned by `parse_transaction`. -/
abbrev PyDict := List (String × PyVal)

/-- Digit-list accumulator for number parsing. -/
def digitsNat : List Char → ℕ → Option ℕ
  | [], acc => some acc
  | c :: cs, acc =>
    if c.isDigit then digitsNat cs (acc * 10 + (c.toNat - '0'.toNat)) else none

/-- Parse a nonempty run of decimal digits. -/
def digitsOf (ds : List Char) : Option ℕ :=
  if ds = [] then none else digitsNat ds 0

/-- Strip an optional leading sign; return (isNegative, rest). -/
def signSplit : List Char → Bool × List Char
  | '-' :: cs => (true, cs)
  | '+' :: cs => (false, cs)
  | cs => (false, cs)

/-- Models Python `int(s)` on signed decimal integer literals. -/
def parseIntStr (s : String) : Option ℤ :=
  let p := signSplit s.toList
  (digitsOf p.2).map (fun n => if p.1 then -(n : ℤ) else (n : ℤ))

/-- Models Python `float(s)` on signed decimal literals with an optional
fractional part. -/
def parseQStr (s : String) : Option ℚ :=
  let p := signSplit s.toList
  let ip := p.2.takeWhile (· ≠ '.')
  let rest := p.2.dropWhile (· ≠ '.')
  let q? : Option ℚ :=
    match rest with
    | [] => (digitsOf ip).map (fun n => (n : ℚ))
    | _ :: fp =>
      if ip = [] ∧ fp = [] then none
      else
        match digitsNat ip 0, digitsNat fp 0 with
        | some i, some f => some ((i : ℚ) + (f : ℚ) / (10 : ℚ) ^ fp.length)
        | _, _ => none
  q?.map (fun q => if p.1 then -q else q)

/-- Python `int(v)`: raises (`.error`) on an unparsable string. -/
def pyToIntE : PyNum → Except Unit ℤ
  | .int n => .ok n
  | .str s => match parseIntStr s with
    | some n => .ok n
    | none => .error ()

/-- The smallest magnitude at which Python `float(n)` overflows on an
integer: values of absolute value at least 2^1024 − 2^970 round beyond
the largest finite double, and `float()` raises `OverflowError`. -/
def floatOverflowBound : ℤ :=
  179769313486231580793728971405303415079934132710037826936173778980444968292764750946649017977587207096330286416692887910946555547851940402630657488671505820681908902000708383676273854845817711531764475730270069855571366959622842914819860834936475292719074168444365510704342711559699508093042880177904174497792

/-- Python `float(n)` on an arbitrary-precision integer: the exact value
as a rational when it fits a double's range (rounding within the range
is ignored, floats being modelled as rationals), and an `OverflowError`
(`.error`) when it does not. -/
def pyFloatOfInt (n : ℤ) : Except Unit ℚ :=
  if |n| < floatOverflowBound then .ok (n : ℚ) else .error ()

/-- Python `float(v)`: raises (`.error`) on an unparsable string and on
an integer beyond double range.  (`float` of a parsable but huge decimal
STRING yields an infinity rather than raising; such strings are outside
the modelled domain of finite literals.) -/
def pyToQE : PyNum → Except Unit ℚ
  | .int n => pyFloatOfInt n
  | .str s => match parseQStr s with
    | some q => .ok q
    | none => .error ()

/-- True iff the computation did not raise. -/
def exOk {α : Type} : Except Unit α → Bool
  | .ok _ => true
  | .error _ => false

/-- Is the first list a prefix of the second? -/
def isPrefixL : List Char → List Char → Bool
  | [], _ => true
  | _ :: _, [] => false
  | a :: as, b :: bs => a = b && isPrefixL as bs

/-- Does the second list contain the first as a contiguous sublist? -/
def isSubL (n : List Char) : List Char → Bool
  | [] => n = ([] : List Char)
  | c :: cs => isPrefixL n (c :: cs) || isSubL n cs

/-- Python `needle in hay` on strings (substring containment). -/
def containsStr (needle hay : String) : Bool :=
  isSubL needle.data hay.data

/-- ASCII lower-casing of one character (Python `str.lower` on the
ASCII domain used by addresses, names and keywords here). -/
def lowerChar (c : Char) : Char :=
  if 'A' ≤ c ∧ c ≤ 'Z' then Char.ofNat (c.toNat + 32) else c

/-- Python `s.lower()`. -/
def lowerStr (s : String) : String :=
  String.mk (s.data.map lowerChar)

/-- Split a character list on the two-character separator `::`
(Python `s.split("::")`, left-to-right, specialised to this separator). -/
def splitOnColons : List Char → List (List Char)
  | [] => [[]]
  | ':' :: ':' :: cs => [] :: splitOnColons cs
  | c :: cs =>
    match splitOnColons cs with
    | [] => [[c]]
    | g :: gs => (c :: g) :: gs

instance {ε α : Type} [DecidableEq ε] [DecidableEq α] :
    DecidableEq (Except ε α) := fun a b =>
  match a, b with
  | .ok x, .ok y =>
    if h : x = y then .isTrue (by rw [h]) else .isFalse (by simp [h])
  | .error x, .error y =>
    if h : x = y then .isTrue (by rw [h]) else .isFalse (by simp [h])
  | .ok _, .error _ => .isFalse (by simp)
  | .error _, .ok _ => .isFalse (by simp)

/-- The helper `format_amount`: base units → display units with the
fixed divisor 10^9 (`float(mist_amount) / 1_000_000_000`; `None` maps
to `0.0`). -/
def format_amount : Option ℚ → ℚ
  | none => 0
  | some q => q / 1000000000

/-- The helper `parse_token_name`: `"SUI"` for the native identifier
(or an empty / absent one, which is falsy in Python), else the trailing
`::`-separated segment of the identifier. -/
def parse_token_name (coin_type : String) : String :=
  if coin_type = "" ∨ coin_type = "0x2::sui::SUI" then "SUI"
  else String.mk ((splitOnColons coin_type.data).getLastD [])

/-- Zero-pad a (nonnegative) integer to two digits. -/
def pad2 (n : ℤ) : String :=
  if n < 10 then "0" ++ toString n else toString n

/-- Gregorian date from days since 1970-01-01 (civil-from-days). -/
def civilFromDays (z0 : ℤ) : ℤ × ℤ × ℤ :=
  let z := z0 + 719468
  let era := Int.fdiv z 146097
  let doe := z - era * 146097
  let yoe := Int.fdiv (doe - Int.fdiv doe 1460 + Int.fdiv doe 36524 - Int.fdiv doe 146096) 365
  let y := yoe + era * 400
  let doy := doe - (365 * yoe + Int.fdiv yoe 4 - Int.fdiv yoe 100)
  let mp := Int.fdiv (5 * doy + 2) 153
  let d := doy - Int.fdiv (153 * mp + 2) 5 + 1
  let m := mp + (if mp < 10 then 3 else -9)
  (y + (if m ≤ 2 then 1 else 0), m, d)

/-- Formatting of `datetime.fromtimestamp(ms / 1000, timezone.utc)`
with the pattern day.month.year UTC hour:minute, zero-padded. -/
def tsFormat (ms : ℤ) : String :=
  let s := Int.fdiv ms 1000
  let days := Int.fdiv s 86400
  let rem := Int.fmod s 86400
  let ymd := civilFromDays days
  pad2 ymd.2.2 ++ "." ++ pad2 ymd.2.1 ++ "." ++ toString ymd.1 ++
    " UTC " ++ pad2 (Int.fdiv rem 3600) ++ ":" ++ pad2 (Int.fdiv (Int.fmod rem 3600) 60)

/-- The `gasUsed` sub-record of a transaction's effects. -/
structure GasUsed where
  computationCost : Option PyNum
  storageCost : Option PyNum
  storageRebate : Option PyNum
deriving DecidableEq, Repr

/-- One entry of the `events` list: its `type` string and the numeric /
address fields of `parsedJson` that the classifier reads. -/
structure SuiEvent where
  type : String
  amount : Option PyNum
  principal_amount : Option PyNum
  reward_amount : Option PyNum
  validator_address : Option String
deriving DecidableEq, Repr

/-- One entry of the `balanceChanges` list.  `owner` is the
`AddressOwner` field of the owner object when it has one. -/
structure BalanceChange where
  owner : Option String
  amount : Option PyNum
  coinType : Option String
deriving DecidableEq, Repr

/-- A raw transaction record as the classifier reads it.  `sender` is the
nested `transaction.data.sender` field. -/
structure TxData where
  digest : Option String
  timestampMs : Option PyNum
  sender : Option String
  gasUsed : Option GasUsed
  events : List SuiEvent
  balanceChanges : List BalanceChange
deriving DecidableEq, Repr

/-- Python `datetime.fromtimestamp(ms / 1000, timezone.utc)` followed by
`strftime`: `datetime` only supports years 1–9999, so a timestamp whose
UTC civil year falls outside that range raises
(`OverflowError` / `ValueError`); in range, it formats. -/
def fromtimestampE (ms : ℤ) : Except Unit String :=
  let y := (civilFromDays (Int.fdiv (Int.fdiv ms 1000) 86400)).1
  if 1 ≤ y ∧ y ≤ 9999 then .ok (tsFormat ms) else .error ()

/-- Timestamp display string: `"Unknown"` when `timestampMs` is absent,
else `int()` conversion followed by `fromtimestamp` and formatting —
either of which may raise. -/
def tsStrE (tx : TxData) : Except Unit String :=
  match tx.timestampMs with
  | none => .ok "Unknown"
  | some v =>
    match pyToIntE v with
    | .error u => .error u
    | .ok n => fromtimestampE n

/-- The gas step (lines 80–83): the three sub-fields, each defaulting to
`0` when absent and `int()`-converted (which may raise on a malformed
string), followed by the `float()` conversion of their net
`comp + stor - rebate` (line 83), which raises on overflow.  The same
integer is re-converted when added back at line 173, so this one check
covers both conversions. -/
def gasTriple (tx : TxData) : Except Unit (ℤ × ℤ × ℤ) :=
  let g := tx.gasUsed.getD ⟨none, none, none⟩
  match pyToIntE (g.computationCost.getD (.int 0)) with
  | .error u => .error u
  | .ok comp =>
    match pyToIntE (g.storageCost.getD (.int 0)) with
    | .error u => .error u
    | .ok stor =>
      match pyToIntE (g.storageRebate.getD (.int 0)) with
      | .error u => .error u
      | .ok rebate =>
        match pyFloatOfInt (comp + stor - rebate) with
        | .error u => .error u
        | .ok _ => .ok (comp, stor, rebate)

/-- Does the event type signal a stake deposit
(`"RequestAddStake" in e_type or "StakingRequest" in e_type`)? -/
def isStakeEvt (t : String) : Bool :=
  containsStr "RequestAddStake" t || containsStr "StakingRequest" t

/-- Does the event type signal a stake withdrawal
(`"Withdraw" in e_type or "Unstake" in e_type or "UnstakingRequest" in e_type`)? -/
def isUnstakeEvt (t : String) : Bool :=
  containsStr "Withdraw" t || containsStr "Unstake" t || containsStr "UnstakingRequest" t

/-- Does the event type match either staking pattern? -/
def isStakingEvt (t : String) : Bool :=
  isStakeEvt t || isUnstakeEvt t

/-- Validator name resolution (lines 111–115 of the source): lower-case
the address, look it up in the directory (default `"Unknown Validator"`),
and apply the hardcoded `"0xa36a"` substring override. -/
def resolveValidator (vmap : String → Option String) (addr_raw : String) : String :=
  let val_addr := lowerStr addr_raw
  let val_name := (vmap val_addr).getD "Unknown Validator"
  if containsStr "0xa36a" val_addr ∧ val_name = "Unknown Validator" then
    "Nansen (Detected)"
  else val_name

/-- The event-derived classification produced by the event scan. -/
structure EvClass where
  ty : String
  amt : ℚ
  recipient : String
  target : PyVal
deriving DecidableEq, Repr

/-- The event scan (lines 98–136): first event matching a staking
pattern wins (stake checked before unstake), the scan then stops;
`float()` conversions of the payload fields may raise. -/
def scanEvents (vmap : String → Option String) (kw : String) :
    List SuiEvent → Except Unit (Option EvClass)
  | [] => .ok none
  | e :: rest =>
    if isStakeEvt e.type then
      match pyToQE (e.amount.getD (.int 0)) with
      | .error u => .error u
      | .ok amount_mist =>
        let sui_val := -(format_amount (some amount_mist))
        let val_name := resolveValidator vmap (e.validator_address.getD "")
        let target : PyVal :=
          if containsStr (lowerStr kw) (lowerStr val_name) then .q sui_val else .s "N/A"
        .ok (some ⟨"Stake", sui_val, val_name, target⟩)
    else if isUnstakeEvt e.type then
      match pyToQE (e.principal_amount.getD (.int 0)) with
      | .error u => .error u
      | .ok p =>
        match pyToQE (e.reward_amount.getD (.int 0)) with
        | .error u => .error u
        | .ok r =>
          if p = 0 ∧ r = 0 then
            match pyToQE (e.amount.getD (.int 0)) with
            | .error u => .error u
            | .ok p2 => .ok (some ⟨"Unstake", format_amount (some (p2 + r)), "N/A", .s "N/A"⟩)
          else .ok (some ⟨"Unstake", format_amount (some (p + r)), "N/A", .s "N/A"⟩)
    else scanEvents vmap kw rest

/-- Select the sender's "primary" balance change (lines 143–162):
first a non-native sender entry, else any sender entry. -/
def findPrimary (changes : List BalanceChange) (sender : String) : Option BalanceChange :=
  match changes.find? (fun c =>
      decide ((c.owner.getD "") = sender ∧ (c.coinType.getD "0x2::sui::SUI") ≠ "0x2::sui::SUI")) with
  | some c => some c
  | none => changes.find? (fun c => decide ((c.owner.getD "") = sender))

/-- The recipient scan for a Send (lines 185–191): the first entry whose
owner differs from the sender, whose amount is positive, and whose
`coinType` (defaulting to `""` when absent) equals the principal's
identifier; the amount conversion may raise, but only for entries whose
owner differs from the sender (Python's `and` short-circuits). -/
def findRecipient (sender coin_type : String) :
    List BalanceChange → Except Unit String
  | [] => .ok "N/A"
  | c :: rest =>
    let addr := c.owner.getD ""
    if addr ≠ sender then
      match pyToQE (c.amount.getD (.int 0)) with
      | .error u => .error u
      | .ok amt =>
        if 0 < amt ∧ (c.coinType.getD "") = coin_type then .ok addr
        else findRecipient sender coin_type rest
    else findRecipient sender coin_type rest

/-- Assemble the full eight-key result dictionary. -/
def mkDict (ty : String) (amt : ℚ) (tok : String) (tgt : PyVal)
    (ts snd rcp : String) (gas : ℚ) : PyDict :=
  [("Type", .s ty), ("Amount", .q amt), ("Token", .s tok), ("Target Amount", tgt),
   ("Timestamp", .s ts), ("Sender", .s snd), ("Recipient", .s rcp), ("Gas Fees", .q gas)]

/-- The classifier `parse_transaction` (lines 65–210).  An absent record
returns the one-key `Network Error` dictionary; otherwise timestamp,
sender and gas are read, the event scan runs, and failing a staking
classification the balance-change fallback classifies Send / Receive /
Contract Call (or leaves `"Unknown"` when no sender entry exists). -/
def parse_transaction (txo : Option TxData) (vmap : String → Option String)
    (kw : String) : Except Unit PyDict :=
  match txo with
  | none => .ok [("Type", PyVal.s "Network Error")]
  | some tx =>
    match tsStrE tx with
    | .error u => .error u
    | .ok ts_str =>
      let sender := tx.sender.getD "Unknown"
      match gasTriple tx with
      | .error u => .error u
      | .ok g =>
        let gas_mist : ℤ := g.1 + g.2.1 - g.2.2
        let gas_fee_sui : ℚ := format_amount (some (gas_mist : ℚ))
        match scanEvents vmap kw tx.events with
        | .error u => .error u
        | .ok (some ec) =>
          .ok (mkDict ec.ty ec.amt "SUI" ec.target ts_str sender ec.recipient gas_fee_sui)
        | .ok none =>
          match findPrimary tx.balanceChanges sender with
          | none => .ok (mkDict "Unknown" 0 "SUI" (.s "N/A") ts_str sender "N/A" gas_fee_sui)
          | some pc =>
            match pyToQE (pc.amount.getD (.int 0)) with
            | .error u => .error u
            | .ok raw =>
              let coin_type := pc.coinType.getD "0x2::sui::SUI"
              let token_name := parse_token_name coin_type
              let net : ℚ := if token_name = "SUI" then raw + (gas_mist : ℚ) else raw
              if net < 0 then
                match findRecipient sender coin_type tx.balanceChanges with
                | .error u => .error u
                | .ok recipient =>
                  .ok (mkDict "Send" (format_amount (some net)) token_name (.s "N/A")
                    ts_str sender recipient gas_fee_sui)
              else if 0 < net then
                .ok (mkDict "Receive" (format_amount (some net)) token_name (.s "N/A")
                  ts_str sender "N/A" gas_fee_sui)
              else
                .ok (mkDict "Contract Call" 0 token_name (.s "N/A")
                  ts_str sender "N/A" gas_fee_sui)

/-! ### The batch orchestrator ("Run Analysis" loop, lines 262–306) -/

/-- The placeholder row appended when an identifier could not be fetched
by either the batch call or the single-record retry. -/
def errorRow : PyDict :=
  [("Type", .s "Error"), ("Amount", .q 0), ("Token", .s "N/A"), ("Target Amount", .s "N/A"),
   ("Timestamp", .s "N/A"), ("Sender", .s "N/A"), ("Recipient", .s "N/A"), ("Gas Fees", .q 0)]

/-- Membership of a digest in the batch lookup dictionary
(`{item['digest']: item for item in batch_data if item and 'digest' in item}`;
a duplicate digest keeps the last item, as Python dict insertion does). -/
def lookupDigest (items : List (Option TxData)) (h : String) : Option TxData :=
  (items.filterMap id).reverse.find? (fun t => decide (t.digest = some h))

/-- Process one identifier of a batch: take the record from the batch
lookup, retry with the single-record fetch when absent, classify when a
record was obtained and emit `errorRow` otherwise. -/
def rowFor (bl : List (Option TxData)) (fs : String → Option TxData)
    (vmap : String → Option String) (kw : String) (h : String) : Except Unit PyDict :=
  match (match lookupDigest bl h with | some t => some t | none => fs h) with
  | none => .ok errorRow
  | some tx => parse_transaction (some tx) vmap kw

/-- The inner per-identifier loop of a batch, collecting rows in order.
An exception from the classifier propagates (aborting the run). -/
def mapRows (f : String → Except Unit PyDict) : List String → Except Unit (List PyDict)
  | [] => .ok []
  | a :: l =>
    match f a with
    | .error u => .error u
    | .ok y =>
      match mapRows f l with
      | .error u => .error u
      | .ok ys => .ok (y :: ys)

/-- The orchestrator: partition the identifiers into groups of ten, fetch
each group with the batch call `fb`, and process each identifier of the
group with `rowFor` (single-record retry `fs`, then classify). -/
def run_analysis (fb : List String → Option (List (Option TxData)))
    (fs : String → Option TxData) (vmap : String → Option String) (kw : String)
    (ids : List String) : Except Unit (List PyDict) :=
  if hne : ids = [] then .ok []
  else
    match mapRows (rowFor ((fb (ids.take 10)).getD []) fs vmap kw) (ids.take 10) with
    | .error u => .error u
    | .ok rows =>
      match run_analysis fb fs vmap kw (ids.drop 10) with
      | .error u => .error u
      | .ok rest => .ok (rows ++ rest)
termination_by ids.length
decreasing_by
  have hpos : 0 < ids.length := List.length_pos.mpr hne
  simp only [List.length_drop]
  omega

/-! ### Well-formedness of the numeric fields of a record -/

/-- The field, defaulted like the source does, converts with `float()`. -/
def wfNumQ (o : Option PyNum) : Bool := exOk (pyToQE (o.getD (.int 0)))

/-- All numeric payload fields of an event convert without error. -/
def wfEvent (e : SuiEvent) : Bool :=
  wfNumQ e.amount && wfNumQ e.principal_amount && wfNumQ e.reward_amount

/-- The amount of a balance-change entry converts without error. -/
def wfChange (c : BalanceChange) : Bool := wfNumQ c.amount

/-- Every conversion the classifier performs on the record's fields
succeeds: the timestamp (if present) parses and falls within the
supported year range, the gas sub-fields parse and their net fits a
float, and every event and balance-change amount converts with
`float()` without overflow. -/
def wfTx (tx : TxData) : Bool :=
  exOk (tsStrE tx) && exOk (gasTriple tx) &&
  tx.events.all wfEvent && tx.balanceChanges.all wfChange

/-- The value `float()` would produce for a balance-change amount
(only used on entries that are known to be well-formed). -/
def totalQ (o : Option PyNum) : ℚ :=
  match pyToQE (o.getD (.int 0)) with
  | .ok q => q
  | .error _ => 0

/-- The recipient rule the code implements, phrased as a first-match
search: first entry whose owner differs from the sender, whose amount is
positive, and whose `coinType` — defaulting to `""` when absent — equals
the principal's identifier; `"N/A"` when there is none. -/
def firstMatchRecipient (snd ct : String) : List BalanceChange → String
  | [] => "N/A"
  | c :: rest =>
    if (c.owner.getD "") ≠ snd ∧ 0 < totalQ c.amount ∧ (c.coinType.getD "") = ct
    then c.owner.getD ""
    else firstMatchRecipient snd ct rest

/-- Modelled from the spec (claim C9's wording): the same recipient rule
but with the entry's asset identifier defaulting to the NATIVE asset when
absent.  Used only to compare the spec's rule against the code's. -/
def claimRecipient (snd ct : String) : List BalanceChange → String
  | [] => "N/A"
  | c :: rest =>
    if (c.owner.getD "") ≠ snd ∧ 0 < totalQ c.amount ∧ (c.coinType.getD "0x2::sui::SUI") = ct
    then c.owner.getD ""
    else claimRecipient snd ct rest

/-! ### Helper lemmas about the event scan and the balance-change scans -/

theorem scanEvents_skip {vmap kw} {e : SuiEvent} {l : List SuiEvent}
    (h : isStakingEvt e.type = false) :
    scanEvents vmap kw (e :: l) = scanEvents vmap kw l := by
  have h1 : isStakeEvt e.type = false := by
    revert h; unfold isStakingEvt; cases isStakeEvt e.type <;> simp
  have h2 : isUnstakeEvt e.type = false := by
    revert h; unfold isStakingEvt; cases isUnstakeEvt e.type <;> simp
  simp [scanEvents, h1, h2]

theorem scanEvents_none (vmap : String → Option String) (kw : String) {l : List SuiEvent}
    (h : ∀ e ∈ l, isStakingEvt e.type = false) :
    scanEvents vmap kw l = .ok none := by
  induction l with
  | nil => rfl
  | cons e rest ih =>
    rw [scanEvents_skip (h e (by simp))]
    exact ih (fun x hx => h x (by simp [hx]))

theorem scanEvents_append {vmap kw} {pre l : List SuiEvent}
    (h : ∀ e ∈ pre, isStakingEvt e.type = false) :
    scanEvents vmap kw (pre ++ l) = scanEvents vmap kw l := by
  induction pre with
  | nil => rfl
  | cons e rest ih =>
    rw [List.cons_append, scanEvents_skip (h e (by simp))]
    exact ih (fun x hx => h x (by simp [hx]))

theorem scanEvents_stake (vmap : String → Option String) (kw : String)
    {e : SuiEvent} (rest : List SuiEvent) {amt : ℚ}
    (hst : isStakeEvt e.type = true)
    (hamt : pyToQE (e.amount.getD (.int 0)) = .ok amt) :
    scanEvents vmap kw (e :: rest) =
      .ok (some ⟨"Stake", -(format_amount (some amt)),
        resolveValidator vmap (e.validator_address.getD ""),
        if containsStr (lowerStr kw) (lowerStr (resolveValidator vmap (e.validator_address.getD "")))
        then .q (-(format_amount (some amt))) else .s "N/A"⟩) := by
  simp [scanEvents, hst, hamt]

theorem scanEvents_unstake (vmap : String → Option String) (kw : String)
    {e : SuiEvent} (rest : List SuiEvent) {p r a : ℚ}
    (hst : isStakeEvt e.type = false)
    (hun : isUnstakeEvt e.type = true)
    (hp : pyToQE (e.principal_amount.getD (.int 0)) = .ok p)
    (hr : pyToQE (e.reward_amount.getD (.int 0)) = .ok r)
    (ha : pyToQE (e.amount.getD (.int 0)) = .ok a) :
    scanEvents vmap kw (e :: rest) =
      .ok (some ⟨"Unstake",
        format_amount (some (if p = 0 ∧ r = 0 then a + r else p + r)), "N/A", .s "N/A"⟩) := by
  by_cases hz : p = 0 ∧ r = 0 <;> simp [scanEvents, hst, hun, hp, hr, ha, hz]

theorem findPrimary_none {changes : List BalanceChange} {s : String}
    (h : ∀ c ∈ changes, (c.owner.getD "") ≠ s) :
    findPrimary changes s = none := by
  have h1 : changes.find? (fun c =>
      decide ((c.owner.getD "") = s) &&
        !decide ((c.coinType.getD "0x2::sui::SUI") = "0x2::sui::SUI")) = none := by
    apply List.find?_eq_none.mpr
    intro c hc
    simp [h c hc]
  have h2 : changes.find? (fun c => decide ((c.owner.getD "") = s)) = none := by
    apply List.find?_eq_none.mpr
    intro c hc
    simpa using h c hc
  simp [findPrimary, h1, h2]

/-! ### Unfolding lemmas for the three top-level paths of the classifier -/

theorem parse_event_eq (tx : TxData) (vmap : String → Option String) (kw : String)
    {ts0 : String} {c s r : ℤ} {ec : EvClass}
    (hts : tsStrE tx = .ok ts0)
    (hg : gasTriple tx = .ok (c, s, r))
    (hev : scanEvents vmap kw tx.events = .ok (some ec)) :
    parse_transaction (some tx) vmap kw =
      .ok (mkDict ec.ty ec.amt "SUI" ec.target ts0 (tx.sender.getD "Unknown")
        ec.recipient (format_amount (some ((c + s - r : ℤ) : ℚ)))) := by
  simp [parse_transaction, hts, hg, hev]

theorem parse_noprimary_eq (tx : TxData) (vmap : String → Option String) (kw : String)
    {ts0 : String} {c s r : ℤ}
    (hts : tsStrE tx = .ok ts0)
    (hg : gasTriple tx = .ok (c, s, r))
    (hev : scanEvents vmap kw tx.events = .ok none)
    (hp : findPrimary tx.balanceChanges (tx.sender.getD "Unknown") = none) :
    parse_transaction (some tx) vmap kw =
      .ok (mkDict "Unknown" 0 "SUI" (.s "N/A") ts0 (tx.sender.getD "Unknown")
        "N/A" (format_amount (some ((c + s - r : ℤ) : ℚ)))) := by
  simp [parse_transaction, hts, hg, hev, hp]

theorem parse_balance_eq (tx : TxData) (vmap : String → Option String) (kw : String)
    {ts0 : String} {c s r : ℤ} {pc : BalanceChange} {raw : ℚ}
    (hts : tsStrE tx = .ok ts0)
    (hg : gasTriple tx = .ok (c, s, r))
    (hev : scanEvents vmap kw tx.events = .ok none)
    (hp : findPrimary tx.balanceChanges (tx.sender.getD "Unknown") = some pc)
    (hraw : pyToQE (pc.amount.getD (.int 0)) = .ok raw) :
    parse_transaction (some tx) vmap kw =
      (if (if parse_token_name (pc.coinType.getD "0x2::sui::SUI") = "SUI"
            then raw + ((c + s - r : ℤ) : ℚ) else raw) < 0 then
        match findRecipient (tx.sender.getD "Unknown") (pc.coinType.getD "0x2::sui::SUI")
            tx.balanceChanges with
        | .error u => .error u
        | .ok recipient =>
          .ok (mkDict "Send"
            (format_amount (some (if parse_token_name (pc.coinType.getD "0x2::sui::SUI") = "SUI"
              then raw + ((c + s - r : ℤ) : ℚ) else raw)))
            (parse_token_name (pc.coinType.getD "0x2::sui::SUI")) (.s "N/A")
            ts0 (tx.sender.getD "Unknown") recipient (format_amount (some ((c + s - r : ℤ) : ℚ))))
      else if 0 < (if parse_token_name (pc.coinType.getD "0x2::sui::SUI") = "SUI"
            then raw + ((c + s - r : ℤ) : ℚ) else raw) then
        .ok (mkDict "Receive"
          (format_amount (some (if parse_token_name (pc.coinType.getD "0x2::sui::SUI") = "SUI"
            then raw + ((c + s - r : ℤ) : ℚ) else raw)))
          (parse_token_name (pc.coinType.getD "0x2::sui::SUI")) (.s "N/A")
          ts0 (tx.sender.getD "Unknown") "N/A" (format_amount (some ((c + s - r : ℤ) : ℚ))))
      else
        .ok (mkDict "Contract Call" 0 (parse_token_name (pc.coinType.getD "0x2::sui::SUI"))
          (.s "N/A") ts0 (tx.sender.getD "Unknown") "N/A"
          (format_amount (some ((c + s - r : ℤ) : ℚ))))) := by
  simp [parse_transaction, hts, hg, hev, hp, hraw]

/-! ### Totality lemmas: well-formed records never raise -/

theorem exOk_iff {α : Type} {x : Except Unit α} : exOk x = true ↔ ∃ y, x = .ok y := by
  cases x <;> simp [exOk]

theorem scanEvents_isOk (vmap : String → Option String) (kw : String) {l : List SuiEvent}
    (h : ∀ e ∈ l, wfEvent e = true) : ∃ o, scanEvents vmap kw l = .ok o := by
  induction l with
  | nil => exact ⟨none, rfl⟩
  | cons e rest ih =>
    have he := h e (by simp)
    simp only [wfEvent, wfNumQ, Bool.and_eq_true, exOk_iff] at he
    obtain ⟨⟨⟨qa, ha⟩, qp, hp⟩, qr, hr⟩ := he
    by_cases hst : isStakeEvt e.type = true
    · exact ⟨_, scanEvents_stake vmap kw rest hst ha⟩
    · have hst' : isStakeEvt e.type = false := by
        revert hst; cases isStakeEvt e.type <;> simp
      by_cases hun : isUnstakeEvt e.type = true
      · exact ⟨_, scanEvents_unstake vmap kw rest hst' hun hp hr ha⟩
      · have hun' : isUnstakeEvt e.type = false := by
          revert hun; cases isUnstakeEvt e.type <;> simp
        have hns : isStakingEvt e.type = false := by
          simp [isStakingEvt, hst', hun']
        rw [scanEvents_skip hns]
        exact ih (fun x hx => h x (by simp [hx]))

theorem findRecipient_eq {snd ct : String} {l : List BalanceChange}
    (h : ∀ c ∈ l, wfChange c = true) :
    findRecipient snd ct l = .ok (firstMatchRecipient snd ct l) := by
  induction l with
  | nil => rfl
  | cons c rest ih =>
    have hc := h c (by simp)
    simp only [wfChange, wfNumQ, exOk_iff] at hc
    obtain ⟨q, hq⟩ := hc
    have ihr := ih (fun x hx => h x (by simp [hx]))
    have htq : totalQ c.amount = q := by simp [totalQ, hq]
    by_cases ho : (c.owner.getD "") = snd
    · have e1 : findRecipient snd ct (c :: rest) = findRecipient snd ct rest := by
        simp [findRecipient, ho]
      have e2 : firstMatchRecipient snd ct (c :: rest) = firstMatchRecipient snd ct rest := by
        simp [firstMatchRecipient, ho]
      rw [e1, e2, ihr]
    · by_cases hcond : 0 < q ∧ (c.coinType.getD "") = ct
      · have e1 : findRecipient snd ct (c :: rest) = .ok (c.owner.getD "") := by
          simp [findRecipient, ho, hq, hcond.1, hcond.2]
        have e2 : firstMatchRecipient snd ct (c :: rest) = c.owner.getD "" := by
          simp [firstMatchRecipient, ho, htq, hcond.1, hcond.2]
        rw [e1, e2]
      · have e1 : findRecipient snd ct (c :: rest) = findRecipient snd ct rest := by
          simp only [findRecipient, hq]
          rw [if_pos ho, if_neg hcond]
        have e2 : firstMatchRecipient snd ct (c :: rest) = firstMatchRecipient snd ct rest := by
          simp only [firstMatchRecipient, htq]
          rw [if_neg]
          intro hx
          exact hcond ⟨hx.2.1, hx.2.2⟩
        rw [e1, e2, ihr]

theorem findPrimary_mem {l : List BalanceChange} {s : String} {pc : BalanceChange}
    (h : findPrimary l s = some pc) : pc ∈ l := by
  unfold findPrimary at h
  cases h1 : l.find? (fun c =>
      decide ((c.owner.getD "") = s ∧ (c.coinType.getD "0x2::sui::SUI") ≠ "0x2::sui::SUI")) with
  | some c =>
    rw [h1] at h
    cases h
    exact List.mem_of_find?_eq_some h1
  | none =>
    rw [h1] at h
    exact List.mem_of_find?_eq_some h

theorem parse_isOk_of_wf (tx : TxData) (vmap : String → Option String) (kw : String)
    (h : wfTx tx = true) :
    exOk (parse_transaction (some tx) vmap kw) = true := by
  simp only [wfTx, Bool.and_eq_true, List.all_eq_true] at h
  obtain ⟨⟨⟨hts0, hg0⟩, hevs⟩, hchs⟩ := h
  obtain ⟨ts0, hts⟩ := exOk_iff.mp hts0
  obtain ⟨g, hgas⟩ := exOk_iff.mp hg0
  obtain ⟨n1, n2, n3⟩ := g
  obtain ⟨o, ho⟩ := scanEvents_isOk vmap kw hevs
  cases o with
  | some ec =>
    rw [parse_event_eq tx vmap kw hts hgas ho]
    rfl
  | none =>
    cases hp : findPrimary tx.balanceChanges (tx.sender.getD "Unknown") with
    | none =>
      rw [parse_noprimary_eq tx vmap kw hts hgas ho hp]
      rfl
    | some pc =>
      have hpcwf := hchs pc (findPrimary_mem hp)
      simp only [wfChange, wfNumQ, exOk_iff] at hpcwf
      obtain ⟨raw, hraw⟩ := hpcwf
      rw [parse_balance_eq tx vmap kw hts hgas ho hp hraw, findRecipient_eq hchs]
      split_ifs <;> rfl

/-! ### Lemmas about the orchestrator -/

theorem lookupDigest_mem {items : List (Option TxData)} {h : String} {t : TxData}
    (hl : lookupDigest items h = some t) : some t ∈ items := by
  unfold lookupDigest at hl
  have hmem := List.mem_of_find?_eq_some hl
  rw [List.mem_reverse] at hmem
  rcases List.mem_filterMap.mp hmem with ⟨ot, hot, hid⟩
  cases ot with
  | none => simp at hid
  | some x =>
    simp only [id] at hid
    cases hid
    exact hot

theorem rowFor_ok {bl : List (Option TxData)} {fs : String → Option TxData}
    {vmap : String → Option String} {kw a : String}
    (hb : ∀ t, some t ∈ bl → exOk (parse_transaction (some t) vmap kw) = true)
    (hf : ∀ t, fs a = some t → exOk (parse_transaction (some t) vmap kw) = true) :
    exOk (rowFor bl fs vmap kw a) = true := by
  unfold rowFor
  cases hld : lookupDigest bl a with
  | some t =>
    simpa using hb t (lookupDigest_mem hld)
  | none =>
    cases hfa : fs a with
    | some t => simpa using hf t hfa
    | none => rfl

theorem rowFor_error_of_unfetched {bl : List (Option TxData)} {fs : String → Option TxData}
    {vmap : String → Option String} {kw a : String}
    (h1 : lookupDigest bl a = none) (h2 : fs a = none) :
    rowFor bl fs vmap kw a = .ok errorRow := by
  simp [rowFor, h1, h2]

theorem mapRows_isOk {f : String → Except Unit PyDict} {l : List String}
    (h : ∀ a ∈ l, exOk (f a) = true) :
    ∃ ys, mapRows f l = .ok ys ∧ ys.length = l.length := by
  induction l with
  | nil => exact ⟨[], rfl, rfl⟩
  | cons a l ih =>
    obtain ⟨y, hy⟩ := exOk_iff.mp (h a (by simp))
    obtain ⟨ys, hys, hlen⟩ := ih (fun x hx => h x (by simp [hx]))
    exact ⟨y :: ys, by simp [mapRows, hy, hys], by simp [hlen]⟩

theorem mapRows_get {f : String → Except Unit PyDict} {l : List String} {ys : List PyDict}
    (hm : mapRows f l = .ok ys) :
    ∀ i (hi : i < l.length) y, f (l.get ⟨i, hi⟩) = .ok y → ys[i]? = some y := by
  induction l generalizing ys with
  | nil => intro i hi; simp at hi
  | cons a l ih =>
    intro i hi y hfy
    unfold mapRows at hm
    cases hfa : f a with
    | error u => rw [hfa] at hm; cases hm
    | ok y0 =>
      rw [hfa] at hm
      cases hrest : mapRows f l with
      | error u => rw [hrest] at hm; cases hm
      | ok ys' =>
        rw [hrest] at hm
        cases hm
        cases i with
        | zero =>
          simp only [List.get] at hfy
          rw [hfa] at hfy
          cases hfy
          simp
        | succ j =>
          simp only [List.getElem?_cons_succ]
          exact ih hrest j (by simpa using hi) y (by simpa using hfy)

/-- The contiguous group of (at most) ten identifiers that the batch
loop fetches together with the identifier at position `i`. -/
def chunkAt (ids : List String) (i : ℕ) : List String :=
  (ids.drop (10 * (i / 10))).take 10

theorem chunkAt_small {ids : List String} {i : ℕ} (h : i < 10) :
    chunkAt ids i = ids.take 10 := by
  unfold chunkAt
  rw [Nat.div_eq_of_lt h]
  simp

theorem chunkAt_drop {ids : List String} {i : ℕ} (h : 10 ≤ i) :
    chunkAt (ids.drop 10) (i - 10) = chunkAt ids i := by
  unfold chunkAt
  rw [List.drop_drop]
  congr 2
  omega

theorem run_analysis_spec (fb : List String → Option (List (Option TxData)))
    (fs : String → Option TxData) (vmap : String → Option String) (kw : String)
    (hfb : ∀ chunk t, some t ∈ (fb chunk).getD [] →
      exOk (parse_transaction (some t) vmap kw) = true)
    (hfs : ∀ a t, fs a = some t → exOk (parse_transaction (some t) vmap kw) = true) :
    ∀ n (ids : List String), ids.length ≤ n →
      ∃ out, run_analysis fb fs vmap kw ids = .ok out ∧ out.length = ids.length ∧
        ∀ i (hi : i < ids.length),
          ∃ row, rowFor ((fb (chunkAt ids i)).getD []) fs vmap kw (ids.get ⟨i, hi⟩) = .ok row ∧
            out[i]? = some row := by
  intro n
  induction n with
  | zero =>
    intro ids hlen
    have hnil : ids = [] := List.eq_nil_of_length_eq_zero (by omega)
    subst hnil
    exact ⟨[], by rw [run_analysis]; simp, rfl, by intro i hi; simp at hi⟩
  | succ n ih =>
    intro ids hlen
    by_cases hne : ids = []
    · subst hne
      exact ⟨[], by rw [run_analysis]; simp, rfl, by intro i hi; simp at hi⟩
    · have hforall : ∀ a ∈ ids.take 10,
          exOk (rowFor ((fb (ids.take 10)).getD []) fs vmap kw a) = true := by
        intro a _
        exact rowFor_ok (fun t ht => hfb (ids.take 10) t ht) (fun t ht => hfs a t ht)
      obtain ⟨rows, hrows, hrlen⟩ := mapRows_isOk hforall
      obtain ⟨rest, hrest, hrestlen, hrestcorr⟩ := ih (ids.drop 10)
        (by simp only [List.length_drop]; omega)
      refine ⟨rows ++ rest, ?_, ?_, ?_⟩
      · rw [run_analysis]
        simp [hne, hrows, hrest]
      · have h1 := List.length_take 10 ids
        have h2 := List.length_drop 10 ids
        simp only [List.length_append, hrlen, hrestlen, h1, h2]
        omega
      · intro i hi
        by_cases hi10 : i < rows.length
        · have hi10' : i < (ids.take 10).length := by rw [← hrlen]; exact hi10
          have hlt10 : i < 10 := by
            have h1 : (ids.take 10).length ≤ 10 := by
              rw [List.length_take]
              exact min_le_left _ _
            omega
          have hel : (ids.take 10).get ⟨i, hi10'⟩ = ids.get ⟨i, hi⟩ := by
            simp [List.get_eq_getElem, List.getElem_take]
          obtain ⟨row, hrow⟩ :=
            exOk_iff.mp (hforall ((ids.take 10).get ⟨i, hi10'⟩) (List.get_mem _ _ _))
          refine ⟨row, ?_, ?_⟩
          · rw [chunkAt_small hlt10, ← hel]
            exact hrow
          · rw [List.getElem?_append_left hi10]
            exact mapRows_get hrows i hi10' row hrow
        · have hge : rows.length ≤ i := by omega
          have h10 : rows.length = 10 := by
            have h1 := List.length_take 10 ids
            rw [hrlen, h1]
            rcases Nat.le_total 10 ids.length with hc | hc
            · omega
            · exfalso
              apply hi10
              rw [hrlen, h1]
              omega
          have hlt : i - 10 < (ids.drop 10).length := by
            simp only [List.length_drop]; omega
          obtain ⟨row, hrowf, hrowi⟩ := hrestcorr (i - 10) hlt
          have hel : (ids.drop 10).get ⟨i - 10, hlt⟩ = ids.get ⟨i, hi⟩ := by
            simp only [List.get_eq_getElem, List.getElem_drop]
            congr 1
            omega
          refine ⟨row, ?_, ?_⟩
          · rw [← chunkAt_drop (by omega : 10 ≤ i), ← hel]
            exact hrowf
          · rw [List.getElem?_append_right hge, h10]
            exact hrowi

/-! ### Reading single keys of a full result dictionary -/

theorem lookup_mkDict_type (ty : String) (amt : ℚ) (tok : String) (tgt : PyVal)
    (ts snd rcp : String) (gas : ℚ) :
    List.lookup "Type" (mkDict ty amt tok tgt ts snd rcp gas) = some (.s ty) := rfl

theorem lookup_mkDict_amount (ty : String) (amt : ℚ) (tok : String) (tgt : PyVal)
    (ts snd rcp : String) (gas : ℚ) :
    List.lookup "Amount" (mkDict ty amt tok tgt ts snd rcp gas) = some (.q amt) := rfl

theorem lookup_mkDict_recipient (ty : String) (amt : ℚ) (tok : String) (tgt : PyVal)
    (ts snd rcp : String) (gas : ℚ) :
    List.lookup "Recipient" (mkDict ty amt tok tgt ts snd rcp gas) = some (.s rcp) := rfl

theorem lookup_mkDict_gas (ty : String) (amt : ℚ) (tok : String) (tgt : PyVal)
    (ts snd rcp : String) (gas : ℚ) :
    List.lookup "Gas Fees" (mkDict ty amt tok tgt ts snd rcp gas) = some (.q gas) := rfl

/-! ### Concrete records used to instantiate and to refute the claims -/

/-- Scenario A's stake-deposit event: 500_000_000_000 base units to
validator address `0xV1`. -/
def evA : SuiEvent :=
  ⟨"0x3::validator::RequestAddStakeEvent", some (.int 500000000000), none, none, some "0xV1"⟩

/-- A stake-withdrawal event with no numeric payload fields. -/
def evW : SuiEvent :=
  ⟨"0x3::validator::RequestWithdrawStakeEvent", none, none, none, none⟩

/-- Scenario A's record: only the stake-deposit event. -/
def txA : TxData := ⟨none, none, none, none, [evA], []⟩

/-- A directory resolving (lower-cased) `0xv1` to `"InfStones"`. -/
def vmapA : String → Option String :=
  fun a => if a = "0xv1" then some "InfStones" else none

/-- A record containing a withdrawal event BEFORE a stake-deposit event. -/
def txC1x : TxData := ⟨none, none, none, none, [evW, evA], []⟩

/-- A record with no events and no balance changes at all. -/
def txEmpty : TxData := ⟨none, none, none, none, [], []⟩

/-- A non-absent record whose `timestampMs` is a malformed string. -/
def txBadTs : TxData := ⟨none, some (.str "garbage"), none, none, [], []⟩

/-! ### The claims -/

/-- Claim C10: for an absent record the classifier returns a mapping
holding only the `Type` key, with value `Network Error`; none of the other
result fields are present. -/
theorem C10_network_error_shape (vmap : String → Option String) (kw : String) :
    ∃ d, parse_transaction none vmap kw = .ok d ∧
      List.lookup "Type" d = some (.s "Network Error") ∧
      List.lookup "Amount" d = none ∧ List.lookup "Token" d = none ∧
      List.lookup "Target Amount" d = none ∧ List.lookup "Timestamp" d = none ∧
      List.lookup "Sender" d = none ∧ List.lookup "Recipient" d = none ∧
      List.lookup "Gas Fees" d = none :=
  ⟨[("Type", .s "Network Error")], rfl, rfl, rfl, rfl, rfl, rfl, rfl, rfl, rfl⟩

/-- Claim C5, counterexample: a non-absent record with a malformed
(present but unparsable) `timestampMs` makes the classifier raise — the
`int()` conversion is not guarded, so a malformed field does abort
classification, contradicting the claim. -/
theorem C5_counterexample :
    parse_transaction (some txBadTs) (fun _ => none) "" = .error () := rfl

/-- A present, parsable timestamp whose instant falls outside the years
1–9999 that `datetime` supports (here 10^20 ms) makes classification
raise, even though the field is numeric and well-formed. -/
theorem parse_raises_on_out_of_range_timestamp :
    parse_transaction (some ⟨none, some (.int 100000000000000000000), none, none, [], []⟩)
      (fun _ => none) "" = .error () := rfl

/-- A well-formed integer gas field at the double-overflow bound makes
the net-gas `float()` conversion (line 83) raise. -/
theorem parse_raises_on_float_overflow :
    parse_transaction (some ⟨none, none, none,
      some ⟨some (.int floatOverflowBound), none, none⟩, [], []⟩)
      (fun _ => none) "" = .error () := rfl

/-- Claim C5 (amended): classification of a non-absent record raises no
exception provided every conversion it performs succeeds: absent fields
default to zero / placeholder values; present numeric fields must parse,
integer amounts and the net gas must fit a Python float, and a present
timestamp must fall within the years 1–9999 that `datetime` supports.
(A malformed or out-of-range field, by contrast, raises — see the
counterexample and the two raise-path theorems above.) -/
theorem C5_no_exception_wf (tx : TxData) (vmap : String → Option String) (kw : String)
    (h : wfTx tx = true) :
    exOk (parse_transaction (some tx) vmap kw) = true :=
  parse_isOk_of_wf tx vmap kw h

/-- Witness for C5: the record with no usable fields is well-formed and
classifies without raising. -/
theorem C5_witness :
    wfTx txEmpty = true ∧ exOk (parse_transaction (some txEmpty) (fun _ => none) "") = true :=
  ⟨by decide, C5_no_exception_wf txEmpty (fun _ => none) "" (by decide)⟩

/-- Claim C2, counterexample: a record with no events and no balance
changes classifies as `Unknown`, not `Contract Call` — the source only
reaches its `Contract Call` branch when a sender balance-change entry
exists with zero net change. -/
theorem C2_counterexample :
    ∃ d, parse_transaction (some txEmpty) (fun _ => none) "Nansen" = .ok d ∧
      List.lookup "Type" d = some (.s "Unknown") ∧
      List.lookup "Type" d ≠ some (.s "Contract Call") :=
  ⟨mkDict "Unknown" 0 "SUI" (.s "N/A") "Unknown" "Unknown" "N/A"
      (format_amount (some ((0 + 0 - 0 : ℤ) : ℚ))),
    parse_noprimary_eq txEmpty (fun _ => none) "Nansen" rfl rfl rfl rfl, rfl, by decide⟩

/-- Claim C2 (amended): for every non-absent record with no staking event
and no balance-change entry owned by the sender, classify returns type
`Unknown` (not `ContractCall`) with amount 0 and the native asset. -/
theorem C2_no_sender_entry (tx : TxData) (vmap : String → Option String) (kw ts0 : String)
    (gc gs gr : ℤ)
    (hev : ∀ e ∈ tx.events, isStakingEvt e.type = false)
    (hbc : ∀ ch ∈ tx.balanceChanges, (ch.owner.getD "") ≠ tx.sender.getD "Unknown")
    (hts : tsStrE tx = .ok ts0)
    (hg : gasTriple tx = .ok (gc, gs, gr)) :
    parse_transaction (some tx) vmap kw =
      .ok (mkDict "Unknown" 0 "SUI" (.s "N/A") ts0 (tx.sender.getD "Unknown") "N/A"
        (((gc + gs - gr : ℤ) : ℚ) / 1000000000)) := by
  have h := parse_noprimary_eq tx vmap kw hts hg
    (scanEvents_none vmap kw hev) (findPrimary_none hbc)
  simpa [format_amount] using h

/-- Witness for C2: scenario F's record (no events, no balance changes). -/
theorem C2_witness :
    parse_transaction (some txEmpty) (fun _ => none) "" =
      .ok (mkDict "Unknown" 0 "SUI" (.s "N/A") "Unknown" "Unknown" "N/A" 0) := by
  have h := C2_no_sender_entry txEmpty (fun _ => none) "" "Unknown" 0 0 0
    (by simp [txEmpty]) (by simp [txEmpty]) rfl rfl
  simpa using h

/-- Claim C1, counterexample: a record CONTAINING a stake-deposit event
classifies as `Unstake`, not `Stake`, when a stake-withdrawal event
precedes it — the scan stops at the first staking match, so merely
containing a stake-deposit event does not force type `Stake`. -/
theorem C1_counterexample :
    (evA ∈ txC1x.events ∧ isStakeEvt evA.type = true) ∧
    ∃ d, parse_transaction (some txC1x) (fun _ => none) "Nansen" = .ok d ∧
      List.lookup "Type" d = some (.s "Unstake") ∧
      List.lookup "Type" d ≠ some (.s "Stake") := by
  refine ⟨⟨by simp [txC1x], by decide⟩, ?_⟩
  have hp : pyToQE (evW.principal_amount.getD (.int 0)) = .ok 0 := by
    norm_num [evW, pyToQE, pyFloatOfInt, floatOverflowBound]
  have hr : pyToQE (evW.reward_amount.getD (.int 0)) = .ok 0 := by
    norm_num [evW, pyToQE, pyFloatOfInt, floatOverflowBound]
  have ha : pyToQE (evW.amount.getD (.int 0)) = .ok 0 := by
    norm_num [evW, pyToQE, pyFloatOfInt, floatOverflowBound]
  have hscan := scanEvents_unstake (fun _ => none) "Nansen" [evA] (by decide) (by decide) hp hr ha
  have h := parse_event_eq txC1x (fun _ => none) "Nansen" rfl rfl hscan
  exact ⟨_, h, rfl, by decide⟩

/-- Claim C1 (amended): for every record whose FIRST staking-pattern
event signals a stake-deposit action (and whose timestamp, gas and event
amount fields convert cleanly), classify returns type `Stake`, amount the
negative of the event amount over 10^9, asset native, recipient the
validator name resolved through the directory, and `targetAmount` that
signed amount iff the resolved name case-insensitively contains the
keyword, else `"N/A"`. -/
theorem C1_stake_classification
    (tx : TxData) (vmap : String → Option String) (kw ts0 : String)
    (gc gs gr : ℤ) (pre rest : List SuiEvent) (e : SuiEvent) (amt : ℚ)
    (hev : tx.events = pre ++ e :: rest)
    (hpre : ∀ x ∈ pre, isStakingEvt x.type = false)
    (hst : isStakeEvt e.type = true)
    (hts : tsStrE tx = .ok ts0)
    (hg : gasTriple tx = .ok (gc, gs, gr))
    (hamt : pyToQE (e.amount.getD (.int 0)) = .ok amt) :
    parse_transaction (some tx) vmap kw =
      .ok (mkDict "Stake" (-(amt / 1000000000)) "SUI"
        (if containsStr (lowerStr kw) (lowerStr (resolveValidator vmap (e.validator_address.getD "")))
         then .q (-(amt / 1000000000)) else .s "N/A")
        ts0 (tx.sender.getD "Unknown")
        (resolveValidator vmap (e.validator_address.getD ""))
        (((gc + gs - gr : ℤ) : ℚ) / 1000000000)) := by
  have hscan : scanEvents vmap kw tx.events =
      .ok (some ⟨"Stake", -(format_amount (some amt)),
        resolveValidator vmap (e.validator_address.getD ""),
        if containsStr (lowerStr kw) (lowerStr (resolveValidator vmap (e.validator_address.getD "")))
        then .q (-(format_amount (some amt))) else .s "N/A"⟩) := by
    rw [hev, scanEvents_append hpre]
    exact scanEvents_stake vmap kw rest hst hamt
  have h := parse_event_eq tx vmap kw hts hg hscan
  simpa [format_amount] using h

/-- Witness for C1: scenario A — stake of 500_000_000_000 base units,
validator resolved to `"InfStones"`, keyword `"InfStones"` ⇒ type Stake,
amount −500, targetAmount −500. -/
theorem C1_witness :
    parse_transaction (some txA) vmapA "InfStones" =
      .ok (mkDict "Stake" (-500) "SUI" (.q (-500)) "Unknown" "Unknown" "InfStones" 0) := by
  have hamt : pyToQE (evA.amount.getD (.int 0)) = .ok ((500000000000 : ℤ) : ℚ) := rfl
  have h := C1_stake_classification txA vmapA "InfStones" "Unknown" 0 0 0 [] [] evA
    ((500000000000 : ℤ) : ℚ) rfl (by simp) rfl rfl rfl hamt
  have hres : resolveValidator vmapA (evA.validator_address.getD "") = "InfStones" := by decide
  have hcond : containsStr (lowerStr "InfStones") (lowerStr "InfStones") = true := by decide
  rw [h, hres]
  simp only [hcond, if_true]
  norm_num
  rfl

/-- Scenario C's record: sender `s`, native balance change of
−1_200_000_000 base units, computation cost 1_000_000. -/
def txC3 : TxData :=
  ⟨none, none, some "s", some ⟨some (.int 1000000), none, none⟩, [],
   [⟨some "s", some (.int (-1200000000)), none⟩]⟩

/-- A Receive record: sender `s`, native balance change of
+2_000_000_000 base units, computation cost 1_000_000. -/
def txC3x : TxData :=
  ⟨none, none, some "s", some ⟨some (.int 1000000), none, none⟩, [],
   [⟨some "s", some (.int 2000000000), none⟩]⟩

/-- Claim C3, counterexample: for a RECEIVE classification the sum
`amount + gasFee` does NOT reconstruct the raw native change magnitude —
it is off by twice the gas fee (0.002 here), far beyond rounding of the
10^9 divisor.  The reconstruction is `amount − gasFee` (see the amended
theorem). -/
theorem C3_counterexample :
    ∃ d, parse_transaction (some txC3x) (fun _ => none) "" = .ok d ∧
      List.lookup "Type" d = some (.s "Receive") ∧
      List.lookup "Amount" d = some (.q (2001 / 1000)) ∧
      List.lookup "Gas Fees" d = some (.q (1 / 1000)) ∧
      |(2001 / 1000 + 1 / 1000 : ℚ) - 2000000000 / 1000000000| > 1 / 1000000000 := by
  have hp : findPrimary txC3x.balanceChanges (txC3x.sender.getD "Unknown") =
      some ⟨some "s", some (.int 2000000000), none⟩ := by decide
  have hraw : pyToQE ((⟨some "s", some (.int 2000000000), none⟩ : BalanceChange).amount.getD (.int 0)) =
      .ok ((2000000000 : ℤ) : ℚ) := rfl
  have h := parse_balance_eq txC3x (fun _ => none) "" rfl rfl rfl hp hraw
  norm_num [parse_token_name, format_amount] at h
  refine ⟨_, h, ?_, ?_, ?_, ?_⟩
  · rw [lookup_mkDict_type]
  · rw [lookup_mkDict_amount]
  · rw [lookup_mkDict_gas]
  · have habs : |(2001 / 1000 + 1 / 1000 : ℚ) - 2000000000 / 1000000000| = 1 / 500 := by
      rw [show (2001 / 1000 + 1 / 1000 : ℚ) - 2000000000 / 1000000000 = 1 / 500 by norm_num]
      rw [abs_of_pos]
      norm_num
    rw [habs]
    norm_num

/-- Claim C3 (amended): for a non-staking native-asset Send/Receive, the
returned display amount and gas fee reconstruct the raw change EXACTLY:
`amount − gasFee = raw/10^9` (signed, both directions), and for a Send
with nonnegative net gas, `|amount| + gasFee = |raw|/10^9`. -/
theorem C3_gas_reconciliation
    (tx : TxData) (vmap : String → Option String) (kw ts0 : String)
    (gc gs gr : ℤ) (pc : BalanceChange) (raw : ℚ) (rcp : String)
    (hev : ∀ e ∈ tx.events, isStakingEvt e.type = false)
    (hts : tsStrE tx = .ok ts0)
    (hg : gasTriple tx = .ok (gc, gs, gr))
    (hp : findPrimary tx.balanceChanges (tx.sender.getD "Unknown") = some pc)
    (hraw : pyToQE (pc.amount.getD (.int 0)) = .ok raw)
    (hnat : pc.coinType.getD "0x2::sui::SUI" = "0x2::sui::SUI")
    (hrcp : findRecipient (tx.sender.getD "Unknown") "0x2::sui::SUI" tx.balanceChanges = .ok rcp)
    (hnz : raw + ((gc + gs - gr : ℤ) : ℚ) ≠ 0) :
    parse_transaction (some tx) vmap kw =
      .ok (mkDict (if raw + ((gc + gs - gr : ℤ) : ℚ) < 0 then "Send" else "Receive")
        ((raw + ((gc + gs - gr : ℤ) : ℚ)) / 1000000000) "SUI" (.s "N/A") ts0
        (tx.sender.getD "Unknown")
        (if raw + ((gc + gs - gr : ℤ) : ℚ) < 0 then rcp else "N/A")
        (((gc + gs - gr : ℤ) : ℚ) / 1000000000)) ∧
    (raw + ((gc + gs - gr : ℤ) : ℚ)) / 1000000000 - ((gc + gs - gr : ℤ) : ℚ) / 1000000000
      = raw / 1000000000 ∧
    (0 ≤ ((gc + gs - gr : ℤ) : ℚ) → raw + ((gc + gs - gr : ℤ) : ℚ) < 0 →
      |(raw + ((gc + gs - gr : ℤ) : ℚ)) / 1000000000| + ((gc + gs - gr : ℤ) : ℚ) / 1000000000
        = |raw| / 1000000000) := by
  have htok : parse_token_name "0x2::sui::SUI" = "SUI" := rfl
  have h := parse_balance_eq tx vmap kw hts hg (scanEvents_none vmap kw hev) hp hraw
  rw [hnat, htok] at h
  simp only [eq_self_iff_true, ite_true] at h
  refine ⟨?_, by ring, ?_⟩
  · rcases lt_trichotomy (raw + ((gc + gs - gr : ℤ) : ℚ)) 0 with hlt | heq | hgt
    · rw [if_pos hlt, hrcp] at h
      rw [h, if_pos hlt, if_pos hlt]
      simp [format_amount]
    · exact absurd heq hnz
    · rw [if_neg (not_lt.mpr hgt.le), if_pos hgt] at h
      rw [h, if_neg (not_lt.mpr hgt.le), if_neg (not_lt.mpr hgt.le)]
      simp [format_amount]
  · intro hG hlt
    have hd : (raw + ((gc + gs - gr : ℤ) : ℚ)) / 1000000000 < 0 :=
      div_neg_of_neg_of_pos hlt (by norm_num)
    have hrawneg : raw < 0 := by linarith
    rw [abs_of_neg hd, abs_of_neg hrawneg]
    ring

/-- Witness for C3: scenario C — raw change −1_200_000_000, net gas
1_000_000 ⇒ type Send, amount −1.199, gas fee 0.001. -/
theorem C3_witness :
    parse_transaction (some txC3) (fun _ => none) "" =
      .ok (mkDict "Send" (-(1199 / 1000 : ℚ)) "SUI" (.s "N/A") "Unknown" "s" "N/A"
        (1 / 1000)) := by
  obtain ⟨h, -, -⟩ := C3_gas_reconciliation txC3 (fun _ => none) "" "Unknown"
    1000000 0 0 ⟨some "s", some (.int (-1200000000)), none⟩ ((-1200000000 : ℤ) : ℚ) "N/A"
    (by simp [txC3]) rfl rfl (by decide) rfl rfl rfl (by norm_num)
  rw [h, if_pos (by norm_num), if_pos (by norm_num)]
  norm_num [mkDict, txC3]

/-- A stake-deposit record whose validator address is unresolved and
contains `0xa36a` NOT as a prefix. -/
def txDet : TxData :=
  ⟨none, none, none, none,
   [⟨"0x3::validator::RequestAddStakeEvent", none, none, none, some "ZZ0xA36aFF"⟩], []⟩

/-- Claim C6, counterexample: an unresolved validator address that merely
CONTAINS `0xa36a` (not as a prefix) still gets the `"Nansen (Detected)"`
label — the code tests substring containment, not a prefix match. -/
theorem C6_counterexample :
    isPrefixL "0xa36a".data (lowerStr "ZZ0xA36aFF").data = false ∧
    ∃ d, parse_transaction (some txDet) (fun _ => none) "Nansen" = .ok d ∧
      List.lookup "Recipient" d = some (.s "Nansen (Detected)") ∧
      List.lookup "Recipient" d ≠ some (.s "Unknown Validator") := by
  refine ⟨by decide, ?_⟩
  have hamt : pyToQE ((⟨"0x3::validator::RequestAddStakeEvent", none, none, none,
      some "ZZ0xA36aFF"⟩ : SuiEvent).amount.getD (.int 0)) = .ok ((0 : ℤ) : ℚ) := rfl
  have hscan := scanEvents_stake (fun _ => none) "Nansen" [] (by decide) hamt
  have h := parse_event_eq txDet (fun _ => none) "Nansen" rfl rfl hscan
  refine ⟨_, h, ?_, ?_⟩
  · rw [lookup_mkDict_recipient]
    decide
  · rw [lookup_mkDict_recipient]
    decide

/-- Claim C6 (amended): for a stake-deposit event whose (lower-cased)
validator address has no Directory entry, the recipient is
`"Unknown Validator"` unless the lower-cased address CONTAINS the
substring `"0xa36a"` (the code checks containment, not a prefix match),
in which case it is `"Nansen (Detected)"`. -/
theorem C6_unknown_validator
    (tx : TxData) (vmap : String → Option String) (kw ts0 : String)
    (gc gs gr : ℤ) (pre rest : List SuiEvent) (e : SuiEvent) (amt : ℚ)
    (hev : tx.events = pre ++ e :: rest)
    (hpre : ∀ x ∈ pre, isStakingEvt x.type = false)
    (hst : isStakeEvt e.type = true)
    (hts : tsStrE tx = .ok ts0)
    (hg : gasTriple tx = .ok (gc, gs, gr))
    (hamt : pyToQE (e.amount.getD (.int 0)) = .ok amt)
    (hnodir : vmap (lowerStr (e.validator_address.getD "")) = none) :
    ∃ d, parse_transaction (some tx) vmap kw = .ok d ∧
      List.lookup "Recipient" d =
        some (.s (if containsStr "0xa36a" (lowerStr (e.validator_address.getD ""))
          then "Nansen (Detected)" else "Unknown Validator")) := by
  have hscan : scanEvents vmap kw tx.events =
      .ok (some ⟨"Stake", -(format_amount (some amt)),
        resolveValidator vmap (e.validator_address.getD ""),
        if containsStr (lowerStr kw) (lowerStr (resolveValidator vmap (e.validator_address.getD "")))
        then .q (-(format_amount (some amt))) else .s "N/A"⟩) := by
    rw [hev, scanEvents_append hpre]
    exact scanEvents_stake vmap kw rest hst hamt
  have h := parse_event_eq tx vmap kw hts hg hscan
  refine ⟨_, h, ?_⟩
  rw [lookup_mkDict_recipient]
  have hres : resolveValidator vmap (e.validator_address.getD "") =
      if containsStr "0xa36a" (lowerStr (e.validator_address.getD ""))
      then "Nansen (Detected)" else "Unknown Validator" := by
    simp [resolveValidator, hnodir]
  rw [hres]

/-- A stake-deposit record with an unresolved validator address that does
not contain the special substring. -/
def txC6w : TxData :=
  ⟨none, none, none, none,
   [⟨"0x3::validator::RequestAddStakeEvent", none, none, none, some "0xB2"⟩], []⟩

/-- Witness for C6: unresolved address without the special substring ⇒
recipient `"Unknown Validator"`. -/
theorem C6_witness :
    ∃ d, parse_transaction (some txC6w) (fun _ => none) "Nansen" = .ok d ∧
      List.lookup "Recipient" d = some (.s "Unknown Validator") := by
  obtain ⟨d, hd, hl⟩ := C6_unknown_validator txC6w (fun _ => none) "Nansen" "Unknown"
    0 0 0 [] [] ⟨"0x3::validator::RequestAddStakeEvent", none, none, none, some "0xB2"⟩
    ((0 : ℤ) : ℚ) rfl (by simp) (by decide) rfl rfl rfl rfl
  refine ⟨d, hd, ?_⟩
  rw [hl]
  decide

/-- Scenario D's record: sender `alice`, non-native balance change of −50
base units of `0xabc::blub::BLUB`, computation cost 1_000_000. -/
def txBlub : TxData :=
  ⟨none, none, some "alice", some ⟨some (.int 1000000), none, none⟩, [],
   [⟨some "alice", some (.int (-50)), some "0xabc::blub::BLUB"⟩]⟩

/-- Claim C7, counterexample: the fixed 10^9 divisor is applied to
non-native assets too, so a raw change of −50 base units yields a display
amount of −50/10^9, not −50. -/
theorem C7_counterexample :
    ∃ d, parse_transaction (some txBlub) (fun _ => none) "" = .ok d ∧
      List.lookup "Amount" d = some (.q (-50 / 1000000000)) ∧
      PyVal.q (-50 / 1000000000) ≠ PyVal.q (-50) := by
  have hp : findPrimary txBlub.balanceChanges (txBlub.sender.getD "Unknown") =
      some ⟨some "alice", some (.int (-50)), some "0xabc::blub::BLUB"⟩ := by decide
  have hraw : pyToQE ((⟨some "alice", some (.int (-50)),
      some "0xabc::blub::BLUB"⟩ : BalanceChange).amount.getD (.int 0)) =
      .ok ((-50 : ℤ) : ℚ) := rfl
  have h := parse_balance_eq txBlub (fun _ => none) "" rfl rfl rfl hp hraw
  have htok : parse_token_name ((⟨some "alice", some (.int (-50)),
      some "0xabc::blub::BLUB"⟩ : BalanceChange).coinType.getD "0x2::sui::SUI") = "BLUB" := rfl
  rw [htok] at h
  simp only [Option.getD_some,
    if_neg (show ¬(("BLUB" : String) = "SUI") from by decide)] at h
  rw [show findRecipient (txBlub.sender.getD "Unknown") "0xabc::blub::BLUB"
      txBlub.balanceChanges = .ok "N/A" from rfl] at h
  rw [if_pos (show ((-50 : ℤ) : ℚ) < 0 from by norm_num)] at h
  norm_num [format_amount] at h
  refine ⟨_, h, ?_, ?_⟩
  · rw [lookup_mkDict_amount]
    norm_num
  · simp only [ne_eq, PyVal.q.injEq]
    norm_num

/-- Claim C7 (amended): a record with no staking events whose sender's
only balance change is −50 base units of `0xabc::blub::BLUB` classifies
as Send with asset `"BLUB"` and amount −50/10^9 display units (the fixed
divisor applies to non-native assets too); gas never enters the amount. -/
theorem C7_token_send (tx : TxData) (vmap : String → Option String) (kw ts0 : String)
    (gc gs gr : ℤ)
    (hev : ∀ e ∈ tx.events, isStakingEvt e.type = false)
    (hbc : tx.balanceChanges =
      [⟨some (tx.sender.getD "Unknown"), some (.int (-50)), some "0xabc::blub::BLUB"⟩])
    (hts : tsStrE tx = .ok ts0)
    (hg : gasTriple tx = .ok (gc, gs, gr)) :
    parse_transaction (some tx) vmap kw =
      .ok (mkDict "Send" (-50 / 1000000000) "BLUB" (.s "N/A") ts0
        (tx.sender.getD "Unknown") "N/A" (((gc + gs - gr : ℤ) : ℚ) / 1000000000)) := by
  have hp : findPrimary tx.balanceChanges (tx.sender.getD "Unknown") =
      some ⟨some (tx.sender.getD "Unknown"), some (.int (-50)), some "0xabc::blub::BLUB"⟩ := by
    rw [hbc]
    simp [findPrimary, List.find?]
  have hraw : pyToQE ((⟨some (tx.sender.getD "Unknown"), some (.int (-50)),
      some "0xabc::blub::BLUB"⟩ : BalanceChange).amount.getD (.int 0)) =
      .ok ((-50 : ℤ) : ℚ) := rfl
  have h := parse_balance_eq tx vmap kw hts hg (scanEvents_none vmap kw hev) hp hraw
  have htok : parse_token_name ((⟨some (tx.sender.getD "Unknown"), some (.int (-50)),
      some "0xabc::blub::BLUB"⟩ : BalanceChange).coinType.getD "0x2::sui::SUI") = "BLUB" := rfl
  rw [htok] at h
  simp only [Option.getD_some,
    if_neg (show ¬(("BLUB" : String) = "SUI") from by decide)] at h
  have hrcp : findRecipient (tx.sender.getD "Unknown") "0xabc::blub::BLUB"
      tx.balanceChanges = .ok "N/A" := by
    rw [hbc]
    simp [findRecipient]
  rw [hrcp] at h
  rw [if_pos (show ((-50 : ℤ) : ℚ) < 0 from by norm_num)] at h
  rw [h]
  norm_num [format_amount]

/-- Witness for C7: scenario D concretely, with nonzero gas that leaves
the amount untouched. -/
theorem C7_witness :
    parse_transaction (some txBlub) (fun _ => none) "InfStones" =
      .ok (mkDict "Send" (-50 / 1000000000) "BLUB" (.s "N/A") "Unknown" "alice" "N/A"
        (1 / 1000)) := by
  have h := C7_token_send txBlub (fun _ => none) "InfStones" "Unknown" 1000000 0 0
    (by simp [txBlub]) rfl rfl rfl
  rw [h]
  norm_num [txBlub]

/-- A stake-withdrawal event with principal 7·10^9 and reward 1·10^9. -/
def evUn : SuiEvent :=
  ⟨"0x3::validator::RequestWithdrawStakeEvent", none, some (.int 7000000000),
   some (.int 1000000000), none⟩

/-- A stake-withdrawal record with principal 7·10^9, reward 1·10^9. -/
def txUn : TxData := ⟨none, none, none, none, [evUn], []⟩

/-- A stake-withdrawal event whose declared principal is negative. -/
def evUnNeg : SuiEvent :=
  ⟨"0x3::validator::RequestWithdrawStakeEvent", none, some (.int (-1)), none, none⟩

/-- A stake-withdrawal record whose declared principal is negative. -/
def txUnNeg : TxData := ⟨none, none, none, none, [evUnNeg], []⟩

/-- Claim C8, counterexample: the code never enforces non-negativity — a
withdrawal event declaring a negative principal yields a NEGATIVE
Unstake amount. -/
theorem C8_counterexample :
    ∃ d x, parse_transaction (some txUnNeg) (fun _ => none) "" = .ok d ∧
      List.lookup "Amount" d = some (.q x) ∧ x < 0 := by
  have hp : pyToQE (evUnNeg.principal_amount.getD (.int 0)) = .ok ((-1 : ℤ) : ℚ) := rfl
  have hr : pyToQE (evUnNeg.reward_amount.getD (.int 0)) = .ok 0 := by
    norm_num [evUnNeg, pyToQE, pyFloatOfInt, floatOverflowBound]
  have ha : pyToQE (evUnNeg.amount.getD (.int 0)) = .ok 0 := by
    norm_num [evUnNeg, pyToQE, pyFloatOfInt, floatOverflowBound]
  have hscan := scanEvents_unstake (fun _ => none) "" [] (by decide) (by decide) hp hr ha
  have h := parse_event_eq txUnNeg (fun _ => none) "" rfl rfl hscan
  norm_num [format_amount] at h
  refine ⟨_, -(1 / 1000000000 : ℚ), h, ?_, ?_⟩
  · rw [lookup_mkDict_amount]
  · norm_num

/-- Claim C8 (amended): for every record whose first staking-pattern
event signals a stake-withdrawal (and not a stake-deposit), the result is
type Unstake, amount the sum of the declared principal and reward
sub-fields over 10^9 — falling back to the generic amount field when both
are zero/absent — no recipient, native asset; the amount is non-negative
PROVIDED the declared fields are non-negative (the code does not enforce
this, see the counterexample). -/
theorem C8_unstake_classification
    (tx : TxData) (vmap : String → Option String) (kw ts0 : String)
    (gc gs gr : ℤ) (pre rest : List SuiEvent) (e : SuiEvent) (p rq a : ℚ)
    (hev : tx.events = pre ++ e :: rest)
    (hpre : ∀ x ∈ pre, isStakingEvt x.type = false)
    (hnost : isStakeEvt e.type = false)
    (hun : isUnstakeEvt e.type = true)
    (hts : tsStrE tx = .ok ts0)
    (hg : gasTriple tx = .ok (gc, gs, gr))
    (hp : pyToQE (e.principal_amount.getD (.int 0)) = .ok p)
    (hr : pyToQE (e.reward_amount.getD (.int 0)) = .ok rq)
    (ha : pyToQE (e.amount.getD (.int 0)) = .ok a)
    (hpn : 0 ≤ p) (hrn : 0 ≤ rq) (han : 0 ≤ a) :
    parse_transaction (some tx) vmap kw =
      .ok (mkDict "Unstake" ((if p = 0 ∧ rq = 0 then a + rq else p + rq) / 1000000000) "SUI"
        (.s "N/A") ts0 (tx.sender.getD "Unknown") "N/A"
        (((gc + gs - gr : ℤ) : ℚ) / 1000000000)) ∧
    0 ≤ (if p = 0 ∧ rq = 0 then a + rq else p + rq) / 1000000000 := by
  constructor
  · have hscan : scanEvents vmap kw tx.events =
        .ok (some ⟨"Unstake",
          format_amount (some (if p = 0 ∧ rq = 0 then a + rq else p + rq)), "N/A", .s "N/A"⟩) := by
      rw [hev, scanEvents_append hpre]
      exact scanEvents_unstake vmap kw rest hnost hun hp hr ha
    have h := parse_event_eq tx vmap kw hts hg hscan
    simpa [format_amount] using h
  · apply div_nonneg _ (by norm_num)
    split_ifs
    · linarith
    · linarith

/-- Witness for C8: withdrawal with principal 7 SUI and reward 1 SUI in
base units ⇒ Unstake, amount 8, non-negative. -/
theorem C8_witness :
    parse_transaction (some txUn) (fun _ => none) "" =
      .ok (mkDict "Unstake" 8 "SUI" (.s "N/A") "Unknown" "Unknown" "N/A" 0) ∧
    (0 : ℚ) ≤ 8 := by
  obtain ⟨h, -⟩ := C8_unstake_classification txUn (fun _ => none) "" "Unknown" 0 0 0
    [] [] evUn ((7000000000 : ℤ) : ℚ) ((1000000000 : ℤ) : ℚ) 0
    rfl (by simp) (by decide) (by decide) rfl rfl rfl
    (by norm_num [evUn, pyToQE, pyFloatOfInt, floatOverflowBound]) (by norm_num [evUn, pyToQE, pyFloatOfInt, floatOverflowBound])
    (by norm_num) (by norm_num) (by norm_num)
  rw [h, if_neg (by norm_num)]
  constructor
  · norm_num [mkDict, txUn]
  · norm_num

/-- A Send record: sender `s` loses 2·10^9 native units; the recipient
entry declares the native asset explicitly. -/
def txC9w : TxData :=
  ⟨none, none, some "s", none, [],
   [⟨some "s", some (.int (-2000000000)), none⟩,
    ⟨some "r", some (.int 1000000000), some "0x2::sui::SUI"⟩]⟩

/-- A Send record like `txC9w` but whose recipient entry has NO asset
identifier. -/
def txC9x : TxData :=
  ⟨none, none, some "s", none, [],
   [⟨some "s", some (.int (-2000000000)), none⟩,
    ⟨some "r", some (.int 1000000000), none⟩]⟩

/-- Claim C9, counterexample: an entry with an ABSENT asset identifier is
compared under the default `""`, not the native asset — so the claim's
rule picks `"r"` as recipient while the code returns `"N/A"`. -/
theorem C9_counterexample :
    claimRecipient "s" "0x2::sui::SUI" txC9x.balanceChanges = "r" ∧
    ∃ d, parse_transaction (some txC9x) (fun _ => none) "" = .ok d ∧
      List.lookup "Recipient" d = some (.s "N/A") ∧ ("N/A" : String) ≠ "r" := by
  refine ⟨by decide, ?_⟩
  have hp : findPrimary txC9x.balanceChanges (txC9x.sender.getD "Unknown") =
      some ⟨some "s", some (.int (-2000000000)), none⟩ := by decide
  have hraw : pyToQE ((⟨some "s", some (.int (-2000000000)),
      none⟩ : BalanceChange).amount.getD (.int 0)) = .ok ((-2000000000 : ℤ) : ℚ) := rfl
  have h := parse_balance_eq txC9x (fun _ => none) "" rfl rfl rfl hp hraw
  have hrcp : findRecipient (txC9x.sender.getD "Unknown")
      ((⟨some "s", some (.int (-2000000000)), none⟩ : BalanceChange).coinType.getD "0x2::sui::SUI")
      txC9x.balanceChanges = .ok "N/A" := by decide
  rw [hrcp] at h
  rw [if_pos (by norm_num [parse_token_name])] at h
  refine ⟨_, h, ?_, by decide⟩
  rw [lookup_mkDict_recipient]

/-- Claim C9 (amended): for a record classified as Send, the recipient is
the owner of the first balance-change entry whose owner differs from the
sender, whose amount is positive, and whose asset identifier — defaulting
to the EMPTY string when absent, not to the native asset — equals the
principal asset's identifier exactly; `"N/A"` when no such entry exists. -/
theorem C9_send_recipient
    (tx : TxData) (vmap : String → Option String) (kw ts0 : String)
    (gc gs gr : ℤ) (pc : BalanceChange) (raw : ℚ)
    (hev : ∀ e ∈ tx.events, isStakingEvt e.type = false)
    (hts : tsStrE tx = .ok ts0)
    (hg : gasTriple tx = .ok (gc, gs, gr))
    (hp : findPrimary tx.balanceChanges (tx.sender.getD "Unknown") = some pc)
    (hraw : pyToQE (pc.amount.getD (.int 0)) = .ok raw)
    (hwf : ∀ ch ∈ tx.balanceChanges, wfChange ch = true)
    (hneg : (if parse_token_name (pc.coinType.getD "0x2::sui::SUI") = "SUI"
        then raw + ((gc + gs - gr : ℤ) : ℚ) else raw) < 0) :
    parse_transaction (some tx) vmap kw =
      .ok (mkDict "Send"
        ((if parse_token_name (pc.coinType.getD "0x2::sui::SUI") = "SUI"
          then raw + ((gc + gs - gr : ℤ) : ℚ) else raw) / 1000000000)
        (parse_token_name (pc.coinType.getD "0x2::sui::SUI")) (.s "N/A") ts0
        (tx.sender.getD "Unknown")
        (firstMatchRecipient (tx.sender.getD "Unknown") (pc.coinType.getD "0x2::sui::SUI")
          tx.balanceChanges)
        (((gc + gs - gr : ℤ) : ℚ) / 1000000000)) := by
  have h := parse_balance_eq tx vmap kw hts hg (scanEvents_none vmap kw hev) hp hraw
  rw [findRecipient_eq hwf] at h
  rw [h, if_pos hneg]
  simp [format_amount]

/-- Witness for C9: the first entry owned by another address with a
positive amount of the (explicitly declared) principal asset becomes the
recipient. -/
theorem C9_witness :
    parse_transaction (some txC9w) (fun _ => none) "" =
      .ok (mkDict "Send" (-2) "SUI" (.s "N/A") "Unknown" "s" "r" 0) := by
  have h := C9_send_recipient txC9w (fun _ => none) "" "Unknown" 0 0 0
    ⟨some "s", some (.int (-2000000000)), none⟩ ((-2000000000 : ℤ) : ℚ)
    (by simp [txC9w]) rfl rfl (by decide) rfl (by decide)
    (by norm_num [parse_token_name])
  rw [h]
  have hfm : firstMatchRecipient (txC9w.sender.getD "Unknown")
      ((⟨some "s", some (.int (-2000000000)), none⟩ : BalanceChange).coinType.getD "0x2::sui::SUI")
      txC9w.balanceChanges = "r" := by decide
  rw [hfm]
  norm_num [parse_token_name, mkDict, txC9w]

/-- Claim C4: the orchestrator yields exactly one row per input
identifier, in the same order as the input: the run succeeds, the output
is length-preserving, and the i-th row is exactly the processing of the
i-th identifier — lookup in its own batch group's response, single-record
retry, then classification (`rowFor`); in particular an identifier
resolved by neither the batch lookup nor the single-record retry yields
the `Error` placeholder row at its own index; and — provided every
fetched record classifies without raising — no per-identifier fetch
failure aborts the run. -/
theorem C4_run_shape
    (fb : List String → Option (List (Option TxData))) (fs : String → Option TxData)
    (vmap : String → Option String) (kw : String) (ids : List String)
    (hfb : ∀ chunk t, some t ∈ (fb chunk).getD [] →
      exOk (parse_transaction (some t) vmap kw) = true)
    (hfs : ∀ a t, fs a = some t → exOk (parse_transaction (some t) vmap kw) = true) :
    ∃ out, run_analysis fb fs vmap kw ids = .ok out ∧ out.length = ids.length ∧
      (∀ i (hi : i < ids.length),
        ∃ row, rowFor ((fb (chunkAt ids i)).getD []) fs vmap kw (ids.get ⟨i, hi⟩) = .ok row ∧
          out[i]? = some row) ∧
      (∀ i (hi : i < ids.length),
        (∀ chunk, lookupDigest ((fb chunk).getD []) (ids.get ⟨i, hi⟩) = none) →
        fs (ids.get ⟨i, hi⟩) = none →
        out[i]? = some errorRow) := by
  obtain ⟨out, h1, h2, h3⟩ := run_analysis_spec fb fs vmap kw hfb hfs ids.length ids le_rfl
  refine ⟨out, h1, h2, h3, ?_⟩
  intro i hi hld hfs2
  obtain ⟨row, hrowf, hrowi⟩ := h3 i hi
  have herr : rowFor ((fb (chunkAt ids i)).getD []) fs vmap kw (ids.get ⟨i, hi⟩) =
      .ok errorRow :=
    rowFor_error_of_unfetched (hld (chunkAt ids i)) hfs2
  rw [hrowf] at herr
  injection herr with hre
  rw [hre] at hrowi
  exact hrowi

/-- Witness for C4: two identifiers, all fetches fail ⇒ the run succeeds
with two rows, row i the processing of identifier i — here both the
`Error` placeholder. -/
theorem C4_witness :
    ∃ out, run_analysis (fun _ => none) (fun _ => none) (fun _ => none) "" ["h1", "h2"] =
        .ok out ∧
      out.length = 2 ∧ out[0]? = some errorRow ∧ out[1]? = some errorRow := by
  obtain ⟨out, h1, h2, hcorr, h3⟩ := C4_run_shape (fun _ => none) (fun _ => none)
    (fun _ => none) "" ["h1", "h2"] (by intro chunk t ht; simp at ht)
    (by intro a t ht; simp at ht)
  refine ⟨out, h1, by simpa using h2, ?_, ?_⟩
  · exact h3 0 (by norm_num) (fun chunk => rfl) rfl
  · exact h3 1 (by norm_num) (fun chunk => rfl) rfl

end Sui
